import Mathlib

/-!
Shallow embedding of `omega_core_rs/src/lib.rs`: the `GestureFsmRs`
hysteresis gesture state machine.  The Rust `f64` fields are modelled as
rationals (the program only adds, subtracts, doubles, takes `max` with 0
and compares, so the arithmetic is exact); the `f64::NAN` sentinel for
`last_frame_ms` is modelled as `Option ℚ` with `none` standing for the
not-yet-set NaN value.  Gesture labels are strings, as in the source.
-/

namespace OmegaCore

/-- The six machine states, mirroring the Rust `FsmStateType` enum. -/
inductive FsmStateType where
  | Idle
  | IdleCoast
  | Ready
  | ReadyCoast
  | CommitPointer
  | CommitCoast
  deriving DecidableEq, Repr

/-- The machine record, mirroring the Rust `GestureFsmRs` struct. -/
structure GestureFsmRs where
  state : FsmStateType
  conf_high : ℚ
  conf_low : ℚ
  dwell_limit_ready_ms : ℚ
  dwell_limit_commit_ms : ℚ
  coast_timeout_ms : ℚ
  current_confidence : ℚ
  dwell_accumulator_ms : ℚ
  coast_elapsed_ms : ℚ
  last_frame_ms : Option ℚ
  deriving DecidableEq, Repr

namespace GestureFsmRs

/-- `GestureFsmRs::new`: the constructor with its default field values. -/
def new : GestureFsmRs where
  state := FsmStateType.Idle
  conf_high := 64/100
  conf_low := 50/100
  dwell_limit_ready_ms := 100
  dwell_limit_commit_ms := 100
  coast_timeout_ms := 500
  current_confidence := 0
  dwell_accumulator_ms := 0
  coast_elapsed_ms := 0
  last_frame_ms := none

/-- `GestureFsmRs::get_state`. -/
def get_state (m : GestureFsmRs) : FsmStateType :=
  m.state

/-- `GestureFsmRs::configure`: each `Option` argument, when present,
overwrites the corresponding limit field. -/
def configure (m : GestureFsmRs) (dwell_ready_ms dwell_commit_ms
    coast_timeout_ms : Option ℚ) : GestureFsmRs :=
  let m := match dwell_ready_ms with
    | some val => { m with dwell_limit_ready_ms := val }
    | none => m
  let m := match dwell_commit_ms with
    | some val => { m with dwell_limit_commit_ms := val }
    | none => m
  match coast_timeout_ms with
    | some val => { m with coast_timeout_ms := val }
    | none => m

/-- `GestureFsmRs::force_coast`. -/
def force_coast (m : GestureFsmRs) : GestureFsmRs :=
  match m.state with
  | FsmStateType.Idle => { m with state := FsmStateType.IdleCoast }
  | FsmStateType.Ready => { m with state := FsmStateType.ReadyCoast }
  | FsmStateType.CommitPointer => { m with state := FsmStateType.CommitCoast }
  | _ => m

/-- `GestureFsmRs::is_coast_state`. -/
def is_coast_state (m : GestureFsmRs) : Bool :=
  match m.state with
  | FsmStateType.IdleCoast => true
  | FsmStateType.ReadyCoast => true
  | FsmStateType.CommitCoast => true
  | _ => false

/-- `GestureFsmRs::transition_to`: the guard silently discards a direct
`Idle → CommitPointer` transition. -/
def transition_to (m : GestureFsmRs) (new_state : FsmStateType) : GestureFsmRs :=
  if m.state = FsmStateType.Idle ∧ new_state = FsmStateType.CommitPointer then
    m
  else
    { m with state := new_state }

/-- `GestureFsmRs::handle_idle`. -/
def handle_idle (m : GestureFsmRs) (gesture : String) (delta_ms : ℚ) :
    GestureFsmRs :=
  if gesture = "open_palm" ∧ m.current_confidence ≥ m.conf_high then
    let m := { m with dwell_accumulator_ms := m.dwell_accumulator_ms + delta_ms }
    if m.dwell_accumulator_ms ≥ m.dwell_limit_ready_ms then
      let m := transition_to m FsmStateType.Ready
      { m with dwell_accumulator_ms := 0 }
    else m
  else
    let m := { m with
      dwell_accumulator_ms := max (m.dwell_accumulator_ms - delta_ms * 2) 0 }
    if m.current_confidence < m.conf_low then
      transition_to m FsmStateType.IdleCoast
    else m

/-- `GestureFsmRs::handle_idle_coast`. -/
def handle_idle_coast (m : GestureFsmRs) (_gesture : String) : GestureFsmRs :=
  if m.current_confidence ≥ m.conf_low then
    transition_to m FsmStateType.Idle
  else m

/-- `GestureFsmRs::handle_ready`. -/
def handle_ready (m : GestureFsmRs) (gesture : String) (delta_ms : ℚ) :
    GestureFsmRs :=
  if gesture = "closed_fist" ∧ m.current_confidence ≥ m.conf_high then
    let m := { m with dwell_accumulator_ms := m.dwell_accumulator_ms + delta_ms }
    if m.dwell_accumulator_ms ≥ m.dwell_limit_commit_ms then
      let m := transition_to m FsmStateType.CommitPointer
      { m with dwell_accumulator_ms := 0 }
    else m
  else if gesture ≠ "open_palm" ∧ gesture ≠ "closed_fist" then
    let m := transition_to m FsmStateType.Idle
    { m with dwell_accumulator_ms := 0 }
  else if m.current_confidence < m.conf_low then
    transition_to m FsmStateType.ReadyCoast
  else
    { m with
      dwell_accumulator_ms := max (m.dwell_accumulator_ms - delta_ms * 2) 0 }

/-- `GestureFsmRs::handle_ready_coast`. -/
def handle_ready_coast (m : GestureFsmRs) (_gesture : String) : GestureFsmRs :=
  if m.current_confidence ≥ m.conf_low then
    transition_to m FsmStateType.Ready
  else m

/-- `GestureFsmRs::handle_commit`. -/
def handle_commit (m : GestureFsmRs) (gesture : String) (_delta_ms : ℚ) :
    GestureFsmRs :=
  if gesture = "open_palm" ∧ m.current_confidence ≥ m.conf_high then
    let m := transition_to m FsmStateType.Ready
    { m with dwell_accumulator_ms := 0 }
  else if m.current_confidence < m.conf_low then
    transition_to m FsmStateType.CommitCoast
  else m

/-- `GestureFsmRs::handle_commit_coast`. -/
def handle_commit_coast (m : GestureFsmRs) (_gesture : String) : GestureFsmRs :=
  if m.current_confidence ≥ m.conf_low then
    transition_to m FsmStateType.CommitPointer
  else m

/-- The inter-frame delta computed at the top of `process_frame`:
`0` on the first frame (NaN sentinel), else `now_ms - last_frame_ms`. -/
def frame_delta (m : GestureFsmRs) (now_ms : ℚ) : ℚ :=
  match m.last_frame_ms with
  | none => 0
  | some t0 => now_ms - t0

/-- `GestureFsmRs::process_frame`.  The coordinates `x`, `y` are accepted
and ignored, as the `_x`, `_y` parameters are in the source. -/
def process_frame (m : GestureFsmRs) (gesture : String) (confidence : ℚ)
    (_x _y now_ms : ℚ) : GestureFsmRs :=
  let delta_ms := frame_delta m now_ms
  let m := { m with last_frame_ms := some now_ms,
                    current_confidence := confidence }
  if m.is_coast_state then
    let m := { m with coast_elapsed_ms := m.coast_elapsed_ms + delta_ms }
    if m.coast_elapsed_ms ≥ m.coast_timeout_ms then
      let m := transition_to m FsmStateType.Idle
      { m with dwell_accumulator_ms := 0 }
    else
      match m.state with
      | FsmStateType.Idle => handle_idle m gesture delta_ms
      | FsmStateType.IdleCoast => handle_idle_coast m gesture
      | FsmStateType.Ready => handle_ready m gesture delta_ms
      | FsmStateType.ReadyCoast => handle_ready_coast m gesture
      | FsmStateType.CommitPointer => handle_commit m gesture delta_ms
      | FsmStateType.CommitCoast => handle_commit_coast m gesture
  else
    let m := { m with coast_elapsed_ms := 0 }
    match m.state with
    | FsmStateType.Idle => handle_idle m gesture delta_ms
    | FsmStateType.IdleCoast => handle_idle_coast m gesture
    | FsmStateType.Ready => handle_ready m gesture delta_ms
    | FsmStateType.ReadyCoast => handle_ready_coast m gesture
    | FsmStateType.CommitPointer => handle_commit m gesture delta_ms
    | FsmStateType.CommitCoast => handle_commit_coast m gesture

end GestureFsmRs

/-- One call on the machine's public mutating interface. -/
inductive Op where
  | configure (dwell_ready_ms dwell_commit_ms coast_timeout_ms : Option ℚ)
  | force_coast
  | process_frame (gesture : String) (confidence x y now_ms : ℚ)
  deriving Repr

/-- Apply one operation to a machine. -/
def applyOp (m : GestureFsmRs) : Op → GestureFsmRs
  | Op.configure a b c => m.configure a b c
  | Op.force_coast => m.force_coast
  | Op.process_frame g conf x y t => m.process_frame g conf x y t

/-- Run a sequence of operations from a freshly constructed machine. -/
def run (ops : List Op) : GestureFsmRs :=
  ops.foldl applyOp GestureFsmRs.new

/-- Machines reachable from a freshly constructed machine by any sequence
of operations in which `process_frame` timestamps are non-decreasing. -/
inductive Reachable : GestureFsmRs → Prop where
  | init : Reachable GestureFsmRs.new
  | cfg {m : GestureFsmRs} (a b c : Option ℚ) :
      Reachable m → Reachable (m.configure a b c)
  | coast {m : GestureFsmRs} :
      Reachable m → Reachable m.force_coast
  | frame {m : GestureFsmRs} (g : String) (conf x y now_ms : ℚ) :
      Reachable m → (∀ t0, m.last_frame_ms = some t0 → t0 ≤ now_ms) →
      Reachable (m.process_frame g conf x y now_ms)

/-! ### Helper lemmas about the embedded operations -/

namespace GestureFsmRs

theorem is_coast_state_iff (m : GestureFsmRs) :
    m.is_coast_state = true ↔
      m.state = FsmStateType.IdleCoast ∨ m.state = FsmStateType.ReadyCoast ∨
        m.state = FsmStateType.CommitCoast := by
  unfold is_coast_state
  cases m.state <;> simp

theorem configure_spec (m : GestureFsmRs) (a b c : Option ℚ) :
    m.configure a b c = { m with
      dwell_limit_ready_ms := a.getD m.dwell_limit_ready_ms,
      dwell_limit_commit_ms := b.getD m.dwell_limit_commit_ms,
      coast_timeout_ms := c.getD m.coast_timeout_ms } := by
  unfold configure
  cases a <;> cases b <;> cases c <;> rfl

theorem force_coast_shape (m : GestureFsmRs) :
    ∃ st, m.force_coast = { m with state := st } := by
  unfold force_coast
  cases hs : m.state <;> exact ⟨_, rfl⟩

theorem transition_to_shape (m : GestureFsmRs) (s : FsmStateType) :
    ∃ st, m.transition_to s = { m with state := st } := by
  unfold transition_to
  split <;> exact ⟨_, rfl⟩

@[simp] theorem transition_to_conf_high (m : GestureFsmRs) (s : FsmStateType) :
    (m.transition_to s).conf_high = m.conf_high := by
  obtain ⟨st2, hh⟩ := transition_to_shape m s
  rw [hh]

@[simp] theorem transition_to_conf_low (m : GestureFsmRs) (s : FsmStateType) :
    (m.transition_to s).conf_low = m.conf_low := by
  obtain ⟨st2, hh⟩ := transition_to_shape m s
  rw [hh]

@[simp] theorem transition_to_dwell_limit_ready_ms (m : GestureFsmRs) (s : FsmStateType) :
    (m.transition_to s).dwell_limit_ready_ms = m.dwell_limit_ready_ms := by
  obtain ⟨st2, hh⟩ := transition_to_shape m s
  rw [hh]

@[simp] theorem transition_to_dwell_limit_commit_ms (m : GestureFsmRs) (s : FsmStateType) :
    (m.transition_to s).dwell_limit_commit_ms = m.dwell_limit_commit_ms := by
  obtain ⟨st2, hh⟩ := transition_to_shape m s
  rw [hh]

@[simp] theorem transition_to_coast_timeout_ms (m : GestureFsmRs) (s : FsmStateType) :
    (m.transition_to s).coast_timeout_ms = m.coast_timeout_ms := by
  obtain ⟨st2, hh⟩ := transition_to_shape m s
  rw [hh]

@[simp] theorem transition_to_current_confidence (m : GestureFsmRs) (s : FsmStateType) :
    (m.transition_to s).current_confidence = m.current_confidence := by
  obtain ⟨st2, hh⟩ := transition_to_shape m s
  rw [hh]

@[simp] theorem transition_to_dwell_accumulator_ms (m : GestureFsmRs) (s : FsmStateType) :
    (m.transition_to s).dwell_accumulator_ms = m.dwell_accumulator_ms := by
  obtain ⟨st2, hh⟩ := transition_to_shape m s
  rw [hh]

@[simp] theorem transition_to_coast_elapsed_ms (m : GestureFsmRs) (s : FsmStateType) :
    (m.transition_to s).coast_elapsed_ms = m.coast_elapsed_ms := by
  obtain ⟨st2, hh⟩ := transition_to_shape m s
  rw [hh]

@[simp] theorem transition_to_last_frame_ms (m : GestureFsmRs) (s : FsmStateType) :
    (m.transition_to s).last_frame_ms = m.last_frame_ms := by
  obtain ⟨st2, hh⟩ := transition_to_shape m s
  rw [hh]

theorem handle_idle_shape (m : GestureFsmRs) (g : String) (δ : ℚ) :
    ∃ dw st, m.handle_idle g δ =
      { m with dwell_accumulator_ms := dw, state := st } := by
  unfold handle_idle transition_to
  dsimp only
  split_ifs <;> exact ⟨_, _, rfl⟩

theorem handle_ready_shape (m : GestureFsmRs) (g : String) (δ : ℚ) :
    ∃ dw st, m.handle_ready g δ =
      { m with dwell_accumulator_ms := dw, state := st } := by
  unfold handle_ready transition_to
  dsimp only
  split_ifs <;> exact ⟨_, _, rfl⟩

theorem handle_commit_shape (m : GestureFsmRs) (g : String) (δ : ℚ) :
    ∃ dw st, m.handle_commit g δ =
      { m with dwell_accumulator_ms := dw, state := st } := by
  unfold handle_commit transition_to
  dsimp only
  split_ifs <;> exact ⟨_, _, rfl⟩

theorem handle_idle_coast_shape (m : GestureFsmRs) (g : String) :
    ∃ st, m.handle_idle_coast g = { m with state := st } := by
  unfold handle_idle_coast transition_to
  split_ifs <;> exact ⟨_, rfl⟩

theorem handle_ready_coast_shape (m : GestureFsmRs) (g : String) :
    ∃ st, m.handle_ready_coast g = { m with state := st } := by
  unfold handle_ready_coast transition_to
  split_ifs <;> exact ⟨_, rfl⟩

theorem handle_commit_coast_shape (m : GestureFsmRs) (g : String) :
    ∃ st, m.handle_commit_coast g = { m with state := st } := by
  unfold handle_commit_coast transition_to
  split_ifs <;> exact ⟨_, rfl⟩

theorem frame_delta_nonneg (m : GestureFsmRs) (t : ℚ)
    (h : ∀ t0, m.last_frame_ms = some t0 → t0 ≤ t) : 0 ≤ m.frame_delta t := by
  unfold frame_delta
  cases hl : m.last_frame_ms with
  | none => exact le_refl 0
  | some t0 =>
    have ht0 := h t0 hl
    show (0:ℚ) ≤ t - t0
    linarith

theorem process_frame_idle (m : GestureFsmRs) (g : String) (c x y t : ℚ)
    (h : m.state = FsmStateType.Idle) :
    m.process_frame g c x y t =
      handle_idle { m with
        last_frame_ms := some t
        current_confidence := c
        coast_elapsed_ms := 0 } g (m.frame_delta t) := by
  obtain ⟨s, ch, cl, dr, dc, ct, cc, dw, ce, lf⟩ := m
  cases s
  · rfl
  all_goals simp at h

theorem process_frame_ready (m : GestureFsmRs) (g : String) (c x y t : ℚ)
    (h : m.state = FsmStateType.Ready) :
    m.process_frame g c x y t =
      handle_ready { m with
        last_frame_ms := some t
        current_confidence := c
        coast_elapsed_ms := 0 } g (m.frame_delta t) := by
  obtain ⟨s, ch, cl, dr, dc, ct, cc, dw, ce, lf⟩ := m
  cases s
  case Ready => rfl
  all_goals simp at h

theorem process_frame_commit (m : GestureFsmRs) (g : String) (c x y t : ℚ)
    (h : m.state = FsmStateType.CommitPointer) :
    m.process_frame g c x y t =
      handle_commit { m with
        last_frame_ms := some t
        current_confidence := c
        coast_elapsed_ms := 0 } g (m.frame_delta t) := by
  obtain ⟨s, ch, cl, dr, dc, ct, cc, dw, ce, lf⟩ := m
  cases s
  case CommitPointer => rfl
  all_goals simp at h

theorem process_frame_coast_timeout (m : GestureFsmRs) (g : String) (c x y t : ℚ)
    (hc : m.is_coast_state = true)
    (ht : m.coast_timeout_ms ≤ m.coast_elapsed_ms + m.frame_delta t) :
    m.process_frame g c x y t =
      { m with
        state := FsmStateType.Idle
        current_confidence := c
        last_frame_ms := some t
        coast_elapsed_ms := m.coast_elapsed_ms + m.frame_delta t
        dwell_accumulator_ms := 0 } := by
  obtain ⟨s, ch, cl, dr, dc, ct, cc, dw, ce, lf⟩ := m
  cases s <;> simp [is_coast_state] at hc <;>
    simp only [process_frame, frame_delta, transition_to, is_coast_state] at * <;>
    simp [ht]

theorem process_frame_idle_coast (m : GestureFsmRs) (g : String) (c x y t : ℚ)
    (h : m.state = FsmStateType.IdleCoast)
    (ht : m.coast_elapsed_ms + m.frame_delta t < m.coast_timeout_ms) :
    m.process_frame g c x y t =
      handle_idle_coast { m with
        last_frame_ms := some t
        current_confidence := c
        coast_elapsed_ms := m.coast_elapsed_ms + m.frame_delta t } g := by
  obtain ⟨s, ch, cl, dr, dc, ct, cc, dw, ce, lf⟩ := m
  cases s
  case IdleCoast =>
    simp only [process_frame, frame_delta, is_coast_state] at *
    rw [if_neg (not_le.mpr ht)]
    simp
  all_goals simp at h

theorem process_frame_ready_coast (m : GestureFsmRs) (g : String) (c x y t : ℚ)
    (h : m.state = FsmStateType.ReadyCoast)
    (ht : m.coast_elapsed_ms + m.frame_delta t < m.coast_timeout_ms) :
    m.process_frame g c x y t =
      handle_ready_coast { m with
        last_frame_ms := some t
        current_confidence := c
        coast_elapsed_ms := m.coast_elapsed_ms + m.frame_delta t } g := by
  obtain ⟨s, ch, cl, dr, dc, ct, cc, dw, ce, lf⟩ := m
  cases s
  case ReadyCoast =>
    simp only [process_frame, frame_delta, is_coast_state] at *
    rw [if_neg (not_le.mpr ht)]
    simp
  all_goals simp at h

theorem process_frame_commit_coast (m : GestureFsmRs) (g : String) (c x y t : ℚ)
    (h : m.state = FsmStateType.CommitCoast)
    (ht : m.coast_elapsed_ms + m.frame_delta t < m.coast_timeout_ms) :
    m.process_frame g c x y t =
      handle_commit_coast { m with
        last_frame_ms := some t
        current_confidence := c
        coast_elapsed_ms := m.coast_elapsed_ms + m.frame_delta t } g := by
  obtain ⟨s, ch, cl, dr, dc, ct, cc, dw, ce, lf⟩ := m
  cases s
  case CommitCoast =>
    simp only [process_frame, frame_delta, is_coast_state] at *
    rw [if_neg (not_le.mpr ht)]
    simp
  all_goals simp at h

theorem handle_idle_dwell (m : GestureFsmRs) (g : String) (δ : ℚ) :
    (m.handle_idle g δ).dwell_accumulator_ms =
      if g = "open_palm" ∧ m.current_confidence ≥ m.conf_high then
        if m.dwell_accumulator_ms + δ ≥ m.dwell_limit_ready_ms then 0
        else m.dwell_accumulator_ms + δ
      else max (m.dwell_accumulator_ms - δ * 2) 0 := by
  unfold handle_idle transition_to
  dsimp only
  split_ifs <;> rfl

theorem handle_idle_state (m : GestureFsmRs) (g : String) (δ : ℚ) :
    (m.handle_idle g δ).state =
      if g = "open_palm" ∧ m.current_confidence ≥ m.conf_high then
        if m.dwell_accumulator_ms + δ ≥ m.dwell_limit_ready_ms then
          FsmStateType.Ready
        else m.state
      else if m.current_confidence < m.conf_low then FsmStateType.IdleCoast
      else m.state := by
  unfold handle_idle transition_to
  dsimp only
  split_ifs <;> first | rfl | simp_all

theorem handle_ready_dwell (m : GestureFsmRs) (g : String) (δ : ℚ) :
    (m.handle_ready g δ).dwell_accumulator_ms =
      if g = "closed_fist" ∧ m.current_confidence ≥ m.conf_high then
        if m.dwell_accumulator_ms + δ ≥ m.dwell_limit_commit_ms then 0
        else m.dwell_accumulator_ms + δ
      else if g ≠ "open_palm" ∧ g ≠ "closed_fist" then 0
      else if m.current_confidence < m.conf_low then m.dwell_accumulator_ms
      else max (m.dwell_accumulator_ms - δ * 2) 0 := by
  unfold handle_ready transition_to
  dsimp only
  split_ifs <;> rfl

theorem handle_ready_state (m : GestureFsmRs) (g : String) (δ : ℚ) :
    (m.handle_ready g δ).state =
      if g = "closed_fist" ∧ m.current_confidence ≥ m.conf_high then
        if m.dwell_accumulator_ms + δ ≥ m.dwell_limit_commit_ms then
          if m.state = FsmStateType.Idle then m.state
          else FsmStateType.CommitPointer
        else m.state
      else if g ≠ "open_palm" ∧ g ≠ "closed_fist" then FsmStateType.Idle
      else if m.current_confidence < m.conf_low then FsmStateType.ReadyCoast
      else m.state := by
  unfold handle_ready transition_to
  dsimp only
  split_ifs <;> first | rfl | simp_all

theorem handle_commit_dwell (m : GestureFsmRs) (g : String) (δ : ℚ) :
    (m.handle_commit g δ).dwell_accumulator_ms =
      if g = "open_palm" ∧ m.current_confidence ≥ m.conf_high then 0
      else m.dwell_accumulator_ms := by
  unfold handle_commit transition_to
  dsimp only
  split_ifs <;> rfl

theorem handle_commit_state (m : GestureFsmRs) (g : String) (δ : ℚ) :
    (m.handle_commit g δ).state =
      if g = "open_palm" ∧ m.current_confidence ≥ m.conf_high then
        FsmStateType.Ready
      else if m.current_confidence < m.conf_low then FsmStateType.CommitCoast
      else m.state := by
  unfold handle_commit transition_to
  dsimp only
  split_ifs <;> first | rfl | simp_all

theorem handle_idle_coast_state (m : GestureFsmRs) (g : String) :
    (m.handle_idle_coast g).state =
      if m.current_confidence ≥ m.conf_low then FsmStateType.Idle
      else m.state := by
  unfold handle_idle_coast transition_to
  split_ifs <;> first | rfl | simp_all

theorem handle_ready_coast_state (m : GestureFsmRs) (g : String) :
    (m.handle_ready_coast g).state =
      if m.current_confidence ≥ m.conf_low then FsmStateType.Ready
      else m.state := by
  unfold handle_ready_coast transition_to
  split_ifs <;> first | rfl | simp_all

theorem handle_commit_coast_state (m : GestureFsmRs) (g : String) :
    (m.handle_commit_coast g).state =
      if m.current_confidence ≥ m.conf_low then
        if m.state = FsmStateType.Idle then m.state
        else FsmStateType.CommitPointer
      else m.state := by
  unfold handle_commit_coast transition_to
  split_ifs <;> first | rfl | simp_all

@[simp] theorem handle_idle_coast_elapsed_ms (m : GestureFsmRs) (g : String) (δ : ℚ) :
    (m.handle_idle g δ).coast_elapsed_ms = m.coast_elapsed_ms := by
  obtain ⟨dw2, st2, hh⟩ := handle_idle_shape m g δ
  rw [hh]

@[simp] theorem handle_idle_last_frame_ms (m : GestureFsmRs) (g : String) (δ : ℚ) :
    (m.handle_idle g δ).last_frame_ms = m.last_frame_ms := by
  obtain ⟨dw2, st2, hh⟩ := handle_idle_shape m g δ
  rw [hh]

@[simp] theorem handle_ready_coast_elapsed_ms (m : GestureFsmRs) (g : String) (δ : ℚ) :
    (m.handle_ready g δ).coast_elapsed_ms = m.coast_elapsed_ms := by
  obtain ⟨dw2, st2, hh⟩ := handle_ready_shape m g δ
  rw [hh]

@[simp] theorem handle_ready_last_frame_ms (m : GestureFsmRs) (g : String) (δ : ℚ) :
    (m.handle_ready g δ).last_frame_ms = m.last_frame_ms := by
  obtain ⟨dw2, st2, hh⟩ := handle_ready_shape m g δ
  rw [hh]

@[simp] theorem handle_commit_coast_elapsed_ms (m : GestureFsmRs) (g : String) (δ : ℚ) :
    (m.handle_commit g δ).coast_elapsed_ms = m.coast_elapsed_ms := by
  obtain ⟨dw2, st2, hh⟩ := handle_commit_shape m g δ
  rw [hh]

@[simp] theorem handle_commit_last_frame_ms (m : GestureFsmRs) (g : String) (δ : ℚ) :
    (m.handle_commit g δ).last_frame_ms = m.last_frame_ms := by
  obtain ⟨dw2, st2, hh⟩ := handle_commit_shape m g δ
  rw [hh]

@[simp] theorem handle_idle_coast_coast_elapsed_ms (m : GestureFsmRs) (g : String) :
    (m.handle_idle_coast g).coast_elapsed_ms = m.coast_elapsed_ms := by
  obtain ⟨st2, hh⟩ := handle_idle_coast_shape m g
  rw [hh]

@[simp] theorem handle_idle_coast_last_frame_ms (m : GestureFsmRs) (g : String) :
    (m.handle_idle_coast g).last_frame_ms = m.last_frame_ms := by
  obtain ⟨st2, hh⟩ := handle_idle_coast_shape m g
  rw [hh]

@[simp] theorem handle_idle_coast_dwell_accumulator_ms (m : GestureFsmRs) (g : String) :
    (m.handle_idle_coast g).dwell_accumulator_ms = m.dwell_accumulator_ms := by
  obtain ⟨st2, hh⟩ := handle_idle_coast_shape m g
  rw [hh]

@[simp] theorem handle_ready_coast_coast_elapsed_ms (m : GestureFsmRs) (g : String) :
    (m.handle_ready_coast g).coast_elapsed_ms = m.coast_elapsed_ms := by
  obtain ⟨st2, hh⟩ := handle_ready_coast_shape m g
  rw [hh]

@[simp] theorem handle_ready_coast_last_frame_ms (m : GestureFsmRs) (g : String) :
    (m.handle_ready_coast g).last_frame_ms = m.last_frame_ms := by
  obtain ⟨st2, hh⟩ := handle_ready_coast_shape m g
  rw [hh]

@[simp] theorem handle_ready_coast_dwell_accumulator_ms (m : GestureFsmRs) (g : String) :
    (m.handle_ready_coast g).dwell_accumulator_ms = m.dwell_accumulator_ms := by
  obtain ⟨st2, hh⟩ := handle_ready_coast_shape m g
  rw [hh]

@[simp] theorem handle_commit_coast_coast_elapsed_ms (m : GestureFsmRs) (g : String) :
    (m.handle_commit_coast g).coast_elapsed_ms = m.coast_elapsed_ms := by
  obtain ⟨st2, hh⟩ := handle_commit_coast_shape m g
  rw [hh]

@[simp] theorem handle_commit_coast_last_frame_ms (m : GestureFsmRs) (g : String) :
    (m.handle_commit_coast g).last_frame_ms = m.last_frame_ms := by
  obtain ⟨st2, hh⟩ := handle_commit_coast_shape m g
  rw [hh]

@[simp] theorem handle_commit_coast_dwell_accumulator_ms (m : GestureFsmRs) (g : String) :
    (m.handle_commit_coast g).dwell_accumulator_ms = m.dwell_accumulator_ms := by
  obtain ⟨st2, hh⟩ := handle_commit_coast_shape m g
  rw [hh]

theorem process_frame_last_frame (m : GestureFsmRs) (g : String)
    (c x y t : ℚ) : (m.process_frame g c x y t).last_frame_ms = some t := by
  obtain ⟨s, ch, cl, dr, dc, ct, cc, dw, ce, lf⟩ := m
  cases s <;> unfold process_frame <;> dsimp only <;> split_ifs <;> simp

theorem process_frame_elapsed (m : GestureFsmRs) (g : String)
    (c x y t : ℚ) :
    (m.process_frame g c x y t).coast_elapsed_ms =
      if m.is_coast_state then m.coast_elapsed_ms + m.frame_delta t else 0 := by
  obtain ⟨s, ch, cl, dr, dc, ct, cc, dw, ce, lf⟩ := m
  cases s <;> unfold process_frame is_coast_state frame_delta <;>
    dsimp only <;> split_ifs <;> simp

theorem process_frame_dwell_nonneg (m : GestureFsmRs) (g : String)
    (c x y t : ℚ) (hdw : 0 ≤ m.dwell_accumulator_ms)
    (hδ : 0 ≤ m.frame_delta t) :
    0 ≤ (m.process_frame g c x y t).dwell_accumulator_ms := by
  obtain ⟨s, ch, cl, dr, dc, ct, cc, dw, ce, lf⟩ := m
  cases s <;> unfold process_frame is_coast_state frame_delta at * <;>
    dsimp only at * <;> split_ifs <;>
    simp_all [handle_idle_dwell, handle_ready_dwell, handle_commit_dwell] <;>
    split_ifs <;> simp_all <;> linarith

end GestureFsmRs

open GestureFsmRs

/-! ### Claim theorems -/

/-- C1: under any single operation from any machine whose state is `Idle`,
the state after the operation is never `CommitPointer` (the
`transition_to` guard and the state graph forbid a direct
`Idle → CommitPointer` step); in particular a single `process_frame` with
gesture `"closed_fist"` and confidence 1.0 on a freshly constructed
machine leaves the state at `Idle`. -/
theorem C1_no_direct_idle_to_commit :
    (∀ (m : GestureFsmRs) (op : Op), m.state = FsmStateType.Idle →
        (applyOp m op).state ≠ FsmStateType.CommitPointer) ∧
    (∀ x y t : ℚ,
        (GestureFsmRs.new.process_frame "closed_fist" 1 x y t).state
          = FsmStateType.Idle) := by
  constructor
  · intro m op h
    cases op with
    | configure a b c =>
      show (m.configure a b c).state ≠ _
      rw [configure_spec]
      simp [h]
    | force_coast =>
      show m.force_coast.state ≠ _
      simp [force_coast, h]
    | process_frame g conf x y t =>
      show (m.process_frame g conf x y t).state ≠ _
      rw [process_frame_idle m g conf x y t h, handle_idle_state]
      split_ifs <;> simp [h]
  · intro x y t
    rw [process_frame_idle _ _ _ _ _ _ rfl, handle_idle_state]
    split_ifs with h1 h2 h3
    · exact absurd h1.1 (by decide)
    · rfl
    · exact absurd h3 (by norm_num [GestureFsmRs.new])
    · rfl

/-- Witness for C1 at concrete inputs. -/
theorem C1_no_direct_idle_to_commit_witness :
    (applyOp GestureFsmRs.new Op.force_coast).state ≠ FsmStateType.CommitPointer ∧
    (GestureFsmRs.new.process_frame "closed_fist" 1 0 0 0).state
      = FsmStateType.Idle :=
  ⟨C1_no_direct_idle_to_commit.1 GestureFsmRs.new Op.force_coast rfl,
   C1_no_direct_idle_to_commit.2 0 0 0⟩

/-- C2: a `process_frame` from any Coast state whose updated coast timer
reaches `coast_timeout_ms` hard-resets the machine: the state becomes
`Idle` and `dwell_accumulator_ms` becomes 0, and no per-state handler runs
(the whole effect of the call is exactly the timestamp/confidence
bookkeeping, the coast-timer update, and the reset) — irrespective of the
frame's confidence. -/
theorem C2_coast_timeout_hard_reset (m : GestureFsmRs) (g : String)
    (c x y t : ℚ) (hc : m.is_coast_state = true)
    (ht : m.coast_timeout_ms ≤ m.coast_elapsed_ms + m.frame_delta t) :
    (m.process_frame g c x y t).state = FsmStateType.Idle ∧
    (m.process_frame g c x y t).dwell_accumulator_ms = 0 ∧
    m.process_frame g c x y t = { m with
      state := FsmStateType.Idle
      current_confidence := c
      last_frame_ms := some t
      coast_elapsed_ms := m.coast_elapsed_ms + m.frame_delta t
      dwell_accumulator_ms := 0 } := by
  have h := process_frame_coast_timeout m g c x y t hc ht
  rw [h]
  exact ⟨rfl, rfl, rfl⟩

/-- Witness for C2: an `IdleCoast` machine with an expired timer, given a
frame with fully recovered confidence, still hard-resets to `Idle`. -/
theorem C2_coast_timeout_hard_reset_witness :
    (({ GestureFsmRs.new with
        state := FsmStateType.IdleCoast
        last_frame_ms := some 0 } : GestureFsmRs).process_frame
      "open_palm" 1 0 0 600).state = FsmStateType.Idle :=
  (C2_coast_timeout_hard_reset
    { GestureFsmRs.new with
      state := FsmStateType.IdleCoast
      last_frame_ms := some 0 } "open_palm" 1 0 0 600 rfl
    (by norm_num [GestureFsmRs.new, GestureFsmRs.frame_delta])).1

/-- C4: the concrete dwell scenario — frames with gesture `"open_palm"`
and confidence 0.9 at t = 0, 50, 100, 150 from a fresh machine give
dwell 0 after t=0, dwell 50 after t=50, state `Ready` with dwell 0 after
t=100, and state still `Ready` after t=150. -/
theorem C4_open_palm_dwell_scenario :
    ((GestureFsmRs.new.process_frame "open_palm" (9/10) 0 0 0).dwell_accumulator_ms
        = 0) ∧
    (((GestureFsmRs.new.process_frame "open_palm" (9/10) 0 0 0).process_frame
        "open_palm" (9/10) 0 0 50).dwell_accumulator_ms = 50) ∧
    ((((GestureFsmRs.new.process_frame "open_palm" (9/10) 0 0 0).process_frame
        "open_palm" (9/10) 0 0 50).process_frame
        "open_palm" (9/10) 0 0 100).state = FsmStateType.Ready) ∧
    ((((GestureFsmRs.new.process_frame "open_palm" (9/10) 0 0 0).process_frame
        "open_palm" (9/10) 0 0 50).process_frame
        "open_palm" (9/10) 0 0 100).dwell_accumulator_ms = 0) ∧
    (((((GestureFsmRs.new.process_frame "open_palm" (9/10) 0 0 0).process_frame
        "open_palm" (9/10) 0 0 50).process_frame
        "open_palm" (9/10) 0 0 100).process_frame
        "open_palm" (9/10) 0 0 150).state = FsmStateType.Ready) := by
  refine ⟨?_, ?_, ?_, ?_, ?_⟩ <;>
    norm_num [GestureFsmRs.process_frame, GestureFsmRs.frame_delta,
      GestureFsmRs.is_coast_state, GestureFsmRs.handle_idle,
      GestureFsmRs.handle_ready, GestureFsmRs.transition_to, GestureFsmRs.new,
      show FsmStateType.Ready ≠ FsmStateType.CommitPointer from by decide,
      show ("open_palm" : String) ≠ "closed_fist" from by decide]

/-- C8: `force_coast` sends `Idle`, `Ready` and `CommitPointer` to their
paired Coast variants, for every machine (hence regardless of the current
confidence), and is a complete no-op when the machine is already in any
Coast state. -/
theorem C8_force_coast_pairs (m : GestureFsmRs) :
    (m.state = FsmStateType.Idle →
      m.force_coast.state = FsmStateType.IdleCoast) ∧
    (m.state = FsmStateType.Ready →
      m.force_coast.state = FsmStateType.ReadyCoast) ∧
    (m.state = FsmStateType.CommitPointer →
      m.force_coast.state = FsmStateType.CommitCoast) ∧
    (m.is_coast_state = true → m.force_coast = m) := by
  obtain ⟨s, ch, cl, dr, dc, ct, cc, dw, ce, lf⟩ := m
  cases s <;> simp [force_coast, is_coast_state]

/-- Witness for C8 at a concrete machine in each kind of position. -/
theorem C8_force_coast_pairs_witness :
    GestureFsmRs.new.force_coast.state = FsmStateType.IdleCoast ∧
    ({ GestureFsmRs.new with state := FsmStateType.IdleCoast
      : GestureFsmRs }).force_coast
      = { GestureFsmRs.new with state := FsmStateType.IdleCoast } :=
  ⟨(C8_force_coast_pairs GestureFsmRs.new).1 rfl,
   (C8_force_coast_pairs _).2.2.2 rfl⟩

/-- C9: `process_frame` never consults the coordinate arguments: two calls
differing only in `x` and `y` produce identical machines. -/
theorem C9_coordinates_ignored (m : GestureFsmRs) (g : String)
    (c t x1 y1 x2 y2 : ℚ) :
    m.process_frame g c x1 y1 t = m.process_frame g c x2 y2 t := rfl

/-! ### Further helper lemmas for the remaining claims -/

theorem GestureFsmRs.handle_ready_to_coast (m : GestureFsmRs) (g : String)
    (δ : ℚ) (hg : g = "open_palm" ∨ g = "closed_fist")
    (hno : ¬(g = "closed_fist" ∧ m.current_confidence ≥ m.conf_high))
    (hc : m.current_confidence < m.conf_low) :
    m.handle_ready g δ = { m with state := FsmStateType.ReadyCoast } := by
  unfold handle_ready transition_to
  rw [if_neg hno]
  rw [if_neg (show ¬(g ≠ "open_palm" ∧ g ≠ "closed_fist") from by
    rcases hg with h | h <;> simp [h])]
  rw [if_pos hc]
  rw [if_neg (by simp)]

theorem GestureFsmRs.handle_ready_coast_to_ready (m : GestureFsmRs)
    (g : String) (hc : m.current_confidence ≥ m.conf_low) :
    m.handle_ready_coast g = { m with state := FsmStateType.Ready } := by
  unfold handle_ready_coast transition_to
  rw [if_pos hc, if_neg (by simp)]

theorem GestureFsmRs.handle_idle_to_ready (m : GestureFsmRs) (g : String)
    (δ : ℚ) (hg : g = "open_palm")
    (hconf : m.current_confidence ≥ m.conf_high)
    (hdw : m.dwell_accumulator_ms + δ ≥ m.dwell_limit_ready_ms) :
    (m.handle_idle g δ).state = FsmStateType.Ready := by
  rw [handle_idle_state, if_pos ⟨hg, hconf⟩, if_pos hdw]

theorem reachable_coast_elapsed_nonneg (m : GestureFsmRs)
    (hm : Reachable m) : 0 ≤ m.coast_elapsed_ms := by
  induction hm with
  | init => exact le_refl 0
  | cfg a b c _ ih =>
    rw [configure_spec]
    exact ih
  | coast _ ih =>
    obtain ⟨st, hsh⟩ := force_coast_shape _
    rw [hsh]
    exact ih
  | frame g conf x y t _ hmono ih =>
    rw [process_frame_elapsed]
    split
    · exact add_nonneg ih (frame_delta_nonneg _ t hmono)
    · exact le_refl 0

/-- C5: from `Ready`, a frame with gesture `open_palm`/`closed_fist` that
does not satisfy the closed-fist accumulate condition and whose confidence
is below `conf_low` moves the machine to `ReadyCoast`; the next frame with
confidence at or above `conf_low` (before the coast timeout) moves it back
to `Ready`, and `dwell_accumulator_ms` is unchanged across the whole coast
excursion. -/
theorem C5_ready_coast_roundtrip (m : GestureFsmRs) (g1 g2 : String)
    (c1 c2 x1 y1 x2 y2 t1 t2 : ℚ)
    (hst : m.state = FsmStateType.Ready)
    (hg : g1 = "open_palm" ∨ g1 = "closed_fist")
    (hno : ¬(g1 = "closed_fist" ∧ c1 ≥ m.conf_high))
    (hc1 : c1 < m.conf_low)
    (hc2 : c2 ≥ m.conf_low)
    (ht : t2 - t1 < m.coast_timeout_ms) :
    (m.process_frame g1 c1 x1 y1 t1).state = FsmStateType.ReadyCoast ∧
    ((m.process_frame g1 c1 x1 y1 t1).process_frame g2 c2 x2 y2 t2).state
      = FsmStateType.Ready ∧
    ((m.process_frame g1 c1 x1 y1 t1).process_frame
      g2 c2 x2 y2 t2).dwell_accumulator_ms = m.dwell_accumulator_ms := by
  have h1 : m.process_frame g1 c1 x1 y1 t1 =
      { m with
        state := FsmStateType.ReadyCoast
        current_confidence := c1
        coast_elapsed_ms := 0
        last_frame_ms := some t1 } := by
    rw [process_frame_ready m g1 c1 x1 y1 t1 hst]
    rw [GestureFsmRs.handle_ready_to_coast _ _ _ hg (by simpa using hno)
      (by simpa using hc1)]
  have h2 : (m.process_frame g1 c1 x1 y1 t1).process_frame g2 c2 x2 y2 t2 =
      { m with
        state := FsmStateType.Ready
        current_confidence := c2
        coast_elapsed_ms := 0 + (t2 - t1)
        last_frame_ms := some t2 } := by
    rw [h1]
    rw [process_frame_ready_coast _ g2 c2 x2 y2 t2 rfl
      (by simpa [GestureFsmRs.frame_delta] using ht)]
    rw [GestureFsmRs.handle_ready_coast_to_ready _ _ (by simpa using hc2)]
    rfl
  refine ⟨?_, ?_, ?_⟩
  · rw [h1]
  · rw [h2]
  · rw [h2]

/-- Witness for C5 from a concrete `Ready` machine. -/
theorem C5_ready_coast_roundtrip_witness :
    ((({ GestureFsmRs.new with state := FsmStateType.Ready }
        : GestureFsmRs).process_frame "open_palm" (3/10) 0 0 0).process_frame
      "open_palm" (6/10) 0 0 100).state = FsmStateType.Ready :=
  (C5_ready_coast_roundtrip
    { GestureFsmRs.new with state := FsmStateType.Ready }
    "open_palm" "open_palm" (3/10) (6/10) 0 0 0 0 0 100 rfl (Or.inl rfl)
    (by simp)
    (by norm_num [GestureFsmRs.new])
    (by norm_num [GestureFsmRs.new])
    (by norm_num [GestureFsmRs.new])).2.1

/-- C7: `configure` overwrites exactly the limits whose arguments are
present and no other field; and after `configure` sets
`dwell_limit_ready_ms` to 0, the very next `process_frame` in `Idle` with
gesture `"open_palm"` and confidence at or above `conf_high` (given
non-negative accumulated dwell and a non-decreasing timestamp) moves the
state to `Ready`. -/
theorem C7_configure_only_limits :
    (∀ (m : GestureFsmRs) (a b c : Option ℚ),
      (m.configure a b c).state = m.state ∧
      (m.configure a b c).dwell_accumulator_ms = m.dwell_accumulator_ms ∧
      (m.configure a b c).coast_elapsed_ms = m.coast_elapsed_ms ∧
      (m.configure a b c).current_confidence = m.current_confidence ∧
      (m.configure a b c).last_frame_ms = m.last_frame_ms ∧
      (m.configure a b c).conf_high = m.conf_high ∧
      (m.configure a b c).conf_low = m.conf_low ∧
      (m.configure a b c).dwell_limit_ready_ms
        = a.getD m.dwell_limit_ready_ms ∧
      (m.configure a b c).dwell_limit_commit_ms
        = b.getD m.dwell_limit_commit_ms ∧
      (m.configure a b c).coast_timeout_ms = c.getD m.coast_timeout_ms) ∧
    (∀ (m : GestureFsmRs) (b c : Option ℚ) (conf x y t : ℚ),
      m.state = FsmStateType.Idle →
      0 ≤ m.dwell_accumulator_ms →
      (∀ t0, m.last_frame_ms = some t0 → t0 ≤ t) →
      conf ≥ m.conf_high →
      ((m.configure (some 0) b c).process_frame "open_palm" conf x y t).state
        = FsmStateType.Ready) := by
  constructor
  · intro m a b c
    rw [configure_spec]
    exact ⟨rfl, rfl, rfl, rfl, rfl, rfl, rfl, rfl, rfl, rfl⟩
  · intro m b c conf x y t hst hdw hmono hconf
    rw [configure_spec]
    rw [process_frame_idle _ _ _ _ _ _ (by exact hst)]
    apply GestureFsmRs.handle_idle_to_ready
    · rfl
    · exact hconf
    · exact add_nonneg hdw (frame_delta_nonneg m t hmono)

/-- Witness for C7 at concrete inputs. -/
theorem C7_configure_only_limits_witness :
    ((GestureFsmRs.new.configure (some 0) none none).process_frame
      "open_palm" 1 0 0 0).state = FsmStateType.Ready ∧
    (GestureFsmRs.new.configure (some 0) none none).state
      = GestureFsmRs.new.state :=
  ⟨C7_configure_only_limits.2 GestureFsmRs.new none none 1 0 0 0 rfl
      (le_refl 0)
      (by intro t0 h0; simp [GestureFsmRs.new] at h0)
      (by norm_num [GestureFsmRs.new]),
   (C7_configure_only_limits.1 GestureFsmRs.new (some 0) none none).1⟩

/-- C3 counterexample: the coast-timeout hard reset moves the state to
`Idle` without zeroing `coast_elapsed_ms`, so a reachable machine (fresh,
`force_coast`, a low-confidence frame at t=0, then a frame at t=600) is in
`Idle` with `coast_elapsed_ms = 600 ≠ 0` — refuting "`coast_elapsed_ms` is
nonzero only while `state` is a Coast variant". -/
theorem C3_counterexample_nonzero_elapsed_outside_coast :
    ¬ ∀ m : GestureFsmRs, Reachable m →
        (0 ≤ m.coast_elapsed_ms ∧
          (m.coast_elapsed_ms ≠ 0 → m.is_coast_state = true)) := by
  intro hall
  have hr : Reachable
      ((GestureFsmRs.new.force_coast.process_frame
        "open_palm" (3/10) 0 0 0).process_frame "open_palm" (3/10) 0 0 600) := by
    refine Reachable.frame _ _ _ _ _
      (Reachable.frame _ _ _ _ _ (Reachable.coast Reachable.init) ?_) ?_
    · intro t0 h0
      simp [GestureFsmRs.force_coast, GestureFsmRs.new] at h0
    · intro t0 h0
      rw [process_frame_last_frame] at h0
      injection h0 with h0
      rw [← h0]
      norm_num
  have h := hall _ hr
  have hce : ((GestureFsmRs.new.force_coast.process_frame
      "open_palm" (3/10) 0 0 0).process_frame
      "open_palm" (3/10) 0 0 600).coast_elapsed_ms = 600 := by
    norm_num [GestureFsmRs.process_frame, GestureFsmRs.frame_delta,
      GestureFsmRs.is_coast_state, GestureFsmRs.handle_idle_coast,
      GestureFsmRs.transition_to, GestureFsmRs.force_coast, GestureFsmRs.new,
      show FsmStateType.IdleCoast ≠ FsmStateType.Idle from by decide,
      show FsmStateType.Idle ≠ FsmStateType.CommitPointer from by decide]
  have hst : ((GestureFsmRs.new.force_coast.process_frame
      "open_palm" (3/10) 0 0 0).process_frame
      "open_palm" (3/10) 0 0 600).is_coast_state = false := by
    norm_num [GestureFsmRs.process_frame, GestureFsmRs.frame_delta,
      GestureFsmRs.is_coast_state, GestureFsmRs.handle_idle_coast,
      GestureFsmRs.transition_to, GestureFsmRs.force_coast, GestureFsmRs.new,
      show FsmStateType.IdleCoast ≠ FsmStateType.Idle from by decide,
      show FsmStateType.Idle ≠ FsmStateType.CommitPointer from by decide]
  have h2 := h.2 (by rw [hce]; norm_num)
  rw [hst] at h2
  exact Bool.false_ne_true h2

/-- C3 as amended: `coast_elapsed_ms ≥ 0` holds in every reachable state,
and any `process_frame` from a non-Coast state zeroes `coast_elapsed_ms`;
but after a coast-timeout hard reset the machine is in `Idle` with its
stale (nonzero) `coast_elapsed_ms`, so nonzero `coast_elapsed_ms` outside
Coast states does occur (see the counterexample). -/
theorem C3_amended_coast_elapsed_invariant :
    (∀ m : GestureFsmRs, Reachable m → 0 ≤ m.coast_elapsed_ms) ∧
    (∀ (m : GestureFsmRs) (g : String) (c x y t : ℚ),
      m.is_coast_state = false →
      (m.process_frame g c x y t).coast_elapsed_ms = 0) := by
  constructor
  · exact reachable_coast_elapsed_nonneg
  · intro m g c x y t h
    rw [process_frame_elapsed, h]
    simp

/-- Witness for the amended C3. -/
theorem C3_amended_coast_elapsed_invariant_witness :
    0 ≤ GestureFsmRs.new.coast_elapsed_ms ∧
    (GestureFsmRs.new.process_frame "open_palm" 1 0 0 0).coast_elapsed_ms
      = 0 :=
  ⟨C3_amended_coast_elapsed_invariant.1 GestureFsmRs.new Reachable.init,
   C3_amended_coast_elapsed_invariant.2 GestureFsmRs.new "open_palm"
     1 0 0 0 rfl⟩

/-- C6: `dwell_accumulator_ms ≥ 0` holds after every operation sequence
with non-decreasing `process_frame` timestamps, and the decay branches of
`handle_idle` and `handle_ready` compute exactly
`max (dwell - 2·delta) 0`. -/
theorem C6_dwell_nonneg_and_decay_floor :
    (∀ m : GestureFsmRs, Reachable m → 0 ≤ m.dwell_accumulator_ms) ∧
    (∀ (m : GestureFsmRs) (g : String) (δ : ℚ),
      ¬(g = "open_palm" ∧ m.current_confidence ≥ m.conf_high) →
      (m.handle_idle g δ).dwell_accumulator_ms
        = max (m.dwell_accumulator_ms - δ * 2) 0) ∧
    (∀ (m : GestureFsmRs) (g : String) (δ : ℚ),
      ¬(g = "closed_fist" ∧ m.current_confidence ≥ m.conf_high) →
      (g = "open_palm" ∨ g = "closed_fist") →
      ¬(m.current_confidence < m.conf_low) →
      (m.handle_ready g δ).dwell_accumulator_ms
        = max (m.dwell_accumulator_ms - δ * 2) 0) := by
  refine ⟨?_, ?_, ?_⟩
  · intro m hm
    induction hm with
    | init => exact le_refl 0
    | cfg a b c _ ih =>
      rw [configure_spec]
      exact ih
    | coast _ ih =>
      obtain ⟨st, hsh⟩ := force_coast_shape _
      rw [hsh]
      exact ih
    | frame g conf x y t _ hmono ih =>
      exact process_frame_dwell_nonneg _ _ _ _ _ _ ih
        (frame_delta_nonneg _ t hmono)
  · intro m g δ h
    rw [handle_idle_dwell, if_neg h]
  · intro m g δ h1 hg h3
    rw [handle_ready_dwell, if_neg h1,
      if_neg (show ¬(g ≠ "open_palm" ∧ g ≠ "closed_fist") from by
        rcases hg with h | h <;> simp [h]),
      if_neg h3]

/-- Witness for C6. -/
theorem C6_dwell_nonneg_and_decay_floor_witness :
    0 ≤ GestureFsmRs.new.dwell_accumulator_ms ∧
    (GestureFsmRs.new.handle_idle "none" 5).dwell_accumulator_ms
      = max (GestureFsmRs.new.dwell_accumulator_ms - 5 * 2) 0 :=
  ⟨C6_dwell_nonneg_and_decay_floor.1 GestureFsmRs.new Reachable.init,
   C6_dwell_nonneg_and_decay_floor.2.1 GestureFsmRs.new "none" 5 (by simp)⟩

/-- C10: `force_coast` mutates only `state` (all nine other fields are
unchanged); consequently if it is called from a primary state while
`coast_elapsed_ms` is already at or above `coast_timeout_ms` (as left
behind by a coast-timeout hard reset, which does not zero
`coast_elapsed_ms`), the machine enters a Coast state with an expired
timer and the very next `process_frame` (at a non-earlier timestamp)
hard-resets it to `Idle` with `dwell_accumulator_ms = 0`. -/
theorem C10_force_coast_only_state (m : GestureFsmRs) :
    (m.force_coast.conf_high = m.conf_high ∧
     m.force_coast.conf_low = m.conf_low ∧
     m.force_coast.dwell_limit_ready_ms = m.dwell_limit_ready_ms ∧
     m.force_coast.dwell_limit_commit_ms = m.dwell_limit_commit_ms ∧
     m.force_coast.coast_timeout_ms = m.coast_timeout_ms ∧
     m.force_coast.current_confidence = m.current_confidence ∧
     m.force_coast.dwell_accumulator_ms = m.dwell_accumulator_ms ∧
     m.force_coast.coast_elapsed_ms = m.coast_elapsed_ms ∧
     m.force_coast.last_frame_ms = m.last_frame_ms) ∧
    (∀ (g : String) (c x y t : ℚ),
      (m.state = FsmStateType.Idle ∨ m.state = FsmStateType.Ready ∨
        m.state = FsmStateType.CommitPointer) →
      m.coast_timeout_ms ≤ m.coast_elapsed_ms →
      (∀ t0, m.last_frame_ms = some t0 → t0 ≤ t) →
      ((m.force_coast.process_frame g c x y t).state = FsmStateType.Idle ∧
       (m.force_coast.process_frame g c x y t).dwell_accumulator_ms = 0)) := by
  obtain ⟨st, hsh⟩ := force_coast_shape m
  constructor
  · rw [hsh]
    exact ⟨rfl, rfl, rfl, rfl, rfl, rfl, rfl, rfl, rfl⟩
  · intro g c x y t hprim ht hmono
    have hc : m.force_coast.is_coast_state = true := by
      rcases hprim with h | h | h <;>
        simp [GestureFsmRs.force_coast, GestureFsmRs.is_coast_state, h]
    have ht2 : m.force_coast.coast_timeout_ms ≤
        m.force_coast.coast_elapsed_ms + m.force_coast.frame_delta t := by
      rw [hsh]
      show m.coast_timeout_ms ≤ m.coast_elapsed_ms + m.frame_delta t
      have hδ := frame_delta_nonneg m t hmono
      linarith
    have h := process_frame_coast_timeout m.force_coast g c x y t hc ht2
    rw [h]
    exact ⟨rfl, rfl⟩

/-- Witness for C10: an `Idle` machine with a stale expired coast timer. -/
theorem C10_force_coast_only_state_witness :
    (({ GestureFsmRs.new with
        coast_elapsed_ms := 600
        last_frame_ms := some 0 } : GestureFsmRs).force_coast.process_frame
      "open_palm" 1 0 0 700).state = FsmStateType.Idle :=
  ((C10_force_coast_only_state
    { GestureFsmRs.new with
      coast_elapsed_ms := 600
      last_frame_ms := some 0 }).2 "open_palm" 1 0 0 700 (Or.inl rfl)
    (by norm_num [GestureFsmRs.new])
    (by
      intro t0 h0
      simp only [Option.some.injEq] at h0
      rw [← h0]
      norm_num)).1

end OmegaCore
